import Mathlib

/- Verification development for the family expense tracker.

   The definitions below are a shallow embedding of the TypeScript sources:
   the access-state resolver (src/hooks/useUserStatus.ts), the collection
   synchronizer (src/hooks/useFirestoreCollection.ts), the dashboard
   aggregator (the Dashboard component), the backup / restore pipeline
   (src/hooks/dataUtils.ts and the restore handler in src/App.tsx) and the
   reference-guarded delete handlers in src/App.tsx.  JavaScript numbers used
   as money amounts and millisecond timestamps are modelled as Int; JavaScript
   truthiness of `null` and `0` is modelled explicitly where the code relies
   on it. -/

inductive TxType where
  | income
  | expense
deriving DecidableEq, Repr

/-- Calendar date as produced by parsing the stored ISO `YYYY-MM-DD` string;
month is 1-based. -/
structure SimpleDate where
  year : Nat
  month : Nat
  day : Nat
deriving DecidableEq, Repr

structure Category where
  id : String
  name : String
  color : String
  icon : String
  type : TxType
deriving DecidableEq, Repr

structure FamilyMember where
  id : String
  name : String
deriving DecidableEq, Repr

structure Transaction where
  id : String
  type : TxType
  amount : Int
  categoryId : String
  date : SimpleDate
  description : String
  memberId : Option String
deriving DecidableEq, Repr

/- Access State Resolver (src/hooks/useUserStatus.ts). -/

inductive CurrentStatus where
  | loading
  | noAuth
  | admin
  | approved
  | pending
  | rejected
  | expired
deriving DecidableEq, Repr

/-- Profile document content as read by the snapshot listener: the status
field is an arbitrary string in the store (the code compares it against the
three known literals), accessExpiresAt is a millisecond timestamp or null. -/
structure ProfileDoc where
  status : String
  accessExpiresAt : Option Int
deriving DecidableEq, Repr

structure AuthUser where
  uid : String
  email : String
deriving DecidableEq, Repr

/-- Snapshot-handler branch of useUserStatus for an existing profile document
(src/hooks/useUserStatus.ts lines 37-52).  The JavaScript guard
`userProfile.accessExpiresAt && userProfile.accessExpiresAt < now` is falsy
both for null and for the numeric timestamp 0, so a stored expiry of 0
behaves like null.  When the status string matches none of the three known
values, no setStatus call is made and the previously published status
persists. -/
def handleSnapshotExists (statusField : String) (accessExpiresAt : Option Int)
    (now : Int) (prev : CurrentStatus) : CurrentStatus :=
  if statusField = "rejected" then .rejected
  else if statusField = "pending" then .pending
  else if statusField = "approved" then
    match accessExpiresAt with
    | some t => if t ≠ 0 ∧ t < now then .expired else .approved
    | none => .approved
  else prev

/-- Profile document written by the self-healing branch (createdAt is a server
timestamp assigned by the store and is not modelled). -/
structure NewProfileDoc where
  email : String
  status : String
  accessExpiresAt : Option Int
deriving DecidableEq, Repr

structure MissingProfileOutcome where
  attemptedCreate : Bool
  createdDoc : Option NewProfileDoc
  status : CurrentStatus
deriving DecidableEq, Repr

/-- Snapshot-handler branch of useUserStatus for a missing profile document
(src/hooks/useUserStatus.ts lines 53-68): the hook always attempts a
self-healing setDoc of a pending profile; when the write is rejected the
catch handler publishes `rejected`, otherwise no setStatus call is made and
the listener waits for the echo of the created document. -/
def handleSnapshotMissing (email : String) (writeOk : Bool)
    (prev : CurrentStatus) : MissingProfileOutcome :=
  { attemptedCreate := true
    createdDoc := if writeOk then some ⟨email, "pending", none⟩ else none
    status := if writeOk then prev else .rejected }

/-- Effect body of useUserStatus (src/hooks/useUserStatus.ts lines 15-76) as a
pure state function of: the auth-loading flag, the optional authenticated
user, the configured administrator uid, the profile document currently in the
store (none when the document does not exist), whether a client-side profile
write would succeed, the wall-clock time and the previously published
status. -/
def useUserStatusResolve (authLoading : Bool) (user : Option AuthUser)
    (adminUid : String) (profileDoc : Option ProfileDoc) (writeOk : Bool)
    (now : Int) (prev : CurrentStatus) : CurrentStatus :=
  if authLoading then .loading
  else
    match user with
    | none => .noAuth
    | some u =>
      if u.uid = adminUid then .admin
      else
        match profileDoc with
        | some p => handleSnapshotExists p.status p.accessExpiresAt now prev
        | none => (handleSnapshotMissing u.email writeOk prev).status

/-- Reduction of the snapshot handler on an approved profile. -/
theorem handleSnapshotExists_approved (e : Option Int) (now : Int)
    (prev : CurrentStatus) :
    handleSnapshotExists "approved" e now prev =
      (match e with
       | some t => if t ≠ 0 ∧ t < now then .expired else .approved
       | none => .approved) := rfl

/-- Claim C1, counterexample: at the boundary now = T the approved branch of
the snapshot handler yields `approved`, not `expired`, because the code only
expires when accessExpiresAt < now (strict). -/
theorem C1_counterexample :
    handleSnapshotExists "approved" (some 1000) 1000 .loading =
      CurrentStatus.approved ∧
    CurrentStatus.approved ≠ CurrentStatus.expired := by
  decide

/-- Claim C1 (amended): for a profile with status approved, a null expiry
resolves to `approved` at every evaluation time; a nonzero expiry T resolves
to `approved` when now ≤ T and to `expired` when now > T — the boundary
now = T stays `approved`, and a stored expiry of 0 is treated like null. -/
theorem C1_approved_resolution (t now : Int) (prev : CurrentStatus)
    (ht : t ≠ 0) :
    handleSnapshotExists "approved" none now prev = CurrentStatus.approved ∧
    (now ≤ t →
      handleSnapshotExists "approved" (some t) now prev =
        CurrentStatus.approved) ∧
    (t < now →
      handleSnapshotExists "approved" (some t) now prev =
        CurrentStatus.expired) := by
  refine ⟨rfl, fun h => ?_, fun h => ?_⟩
  · rw [handleSnapshotExists_approved]
    exact if_neg (fun hc => absurd hc.2 (not_lt.mpr h))
  · rw [handleSnapshotExists_approved]
    exact if_pos ⟨ht, h⟩

theorem C1_approved_resolution_witness :
    (1000 : Int) ≠ 0 ∧
    handleSnapshotExists "approved" (some 1000) 500 .loading =
      CurrentStatus.approved :=
  ⟨by decide, (C1_approved_resolution 1000 500 .loading (by decide)).2.1
    (by decide)⟩

/-- Claim C2: an authenticated identity whose stored uid equals the configured
administrator identifier resolves to `admin` for every profile-document state
(existing with any contents, or missing), every write outcome, every time and
every previously published status: the profile lookup is bypassed entirely. -/
theorem C2_admin_bypass (u : AuthUser) (adminUid : String)
    (profileDoc : Option ProfileDoc) (writeOk : Bool) (now : Int)
    (prev : CurrentStatus) (h : u.uid = adminUid) :
    useUserStatusResolve false (some u) adminUid profileDoc writeOk now prev =
      CurrentStatus.admin := by
  simp [useUserStatusResolve, h]

theorem C2_admin_bypass_witness :
    (AuthUser.mk "admin-uid" "a@b.c").uid = "admin-uid" ∧
    useUserStatusResolve false (some ⟨"admin-uid", "a@b.c"⟩) "admin-uid"
      (some ⟨"rejected", none⟩) false 0 .loading = CurrentStatus.admin :=
  ⟨rfl, C2_admin_bypass ⟨"admin-uid", "a@b.c"⟩ "admin-uid"
    (some ⟨"rejected", none⟩) false 0 .loading rfl⟩

/-- Claim C3: for an authenticated non-admin identity with no profile
document, the resolver follows the self-healing policy uniformly: it always
attempts the idempotent creation of a `pending` profile (with null expiry and
the user's email), and its published state is well defined in every case —
unchanged while the write is in flight or succeeded (the listener then picks
up the created document), and `rejected` exactly when the write fails.  No
third or undefined behavior exists. -/
theorem C3_missing_profile_policy (email : String) (writeOk : Bool)
    (prev : CurrentStatus) :
    (handleSnapshotMissing email writeOk prev).attemptedCreate = true ∧
    (∀ d, (handleSnapshotMissing email writeOk prev).createdDoc = some d →
      d.status = "pending" ∧ d.accessExpiresAt = none ∧ d.email = email) ∧
    (writeOk = false →
      (handleSnapshotMissing email writeOk prev).status =
        CurrentStatus.rejected) ∧
    (writeOk = true →
      (handleSnapshotMissing email writeOk prev).status = prev) := by
  refine ⟨rfl, fun d hd => ?_, fun h => ?_, fun h => ?_⟩
  · cases writeOk with
    | false => simp [handleSnapshotMissing] at hd
    | true =>
      simp [handleSnapshotMissing] at hd
      simp [← hd]
  · simp [handleSnapshotMissing, h]
  · simp [handleSnapshotMissing, h]

theorem C3_missing_profile_policy_witness :
    (handleSnapshotMissing "a@b.c" false .loading).status =
      CurrentStatus.rejected :=
  (C3_missing_profile_policy "a@b.c" false .loading).2.2.1 rfl

/-- Claim C10: when an existing profile document carries a status string other
than pending, approved or rejected, the snapshot handler assigns no new
state: the previously published status (initially `loading`) persists, for
every expiry value and evaluation time. -/
theorem C10_malformed_status_persists (s : String) (e : Option Int) (now : Int)
    (prev : CurrentStatus) (h1 : s ≠ "rejected") (h2 : s ≠ "pending")
    (h3 : s ≠ "approved") :
    handleSnapshotExists s e now prev = prev := by
  simp [handleSnapshotExists, h1, h2, h3]

theorem C10_malformed_status_persists_witness :
    ("corrupted" ≠ "rejected" ∧ "corrupted" ≠ "pending" ∧
      "corrupted" ≠ "approved") ∧
    handleSnapshotExists "corrupted" (some 7) 3 .loading =
      CurrentStatus.loading :=
  ⟨by decide, C10_malformed_status_persists "corrupted" (some 7) 3 .loading
    (by decide) (by decide) (by decide)⟩

/- Reference-guarded delete handlers (src/App.tsx lines 151-159 and
   174-182). -/

/-- Delete handler for categories: returns whether the store delete is
attempted.  The handler bails out with an alert when some transaction
references the category; otherwise the delete runs iff the user confirms the
dialog. -/
def handleDeleteCategory (transactions : List Transaction) (id : String)
    (confirm : Bool) : Bool :=
  if transactions.any (fun t => t.categoryId == id) then false
  else if confirm then true else false

/-- Delete handler for family members: same shape, guarded on
`t.memberId === id` (an absent memberId never equals a member id). -/
def handleDeleteMember (transactions : List Transaction) (id : String)
    (confirm : Bool) : Bool :=
  if transactions.any (fun t => t.memberId == some id) then false
  else if confirm then true else false

/-- Claim C8: a category or member delete is rejected (the store delete is not
attempted, whatever the confirmation dialog would answer) whenever at least
one transaction references the id, and proceeds when no transaction
references it (given the user confirms the dialog). -/
theorem C8_reference_guarded_delete (ts : List Transaction) (cid mid : String) :
    ((∃ t ∈ ts, t.categoryId = cid) →
      ∀ confirm, handleDeleteCategory ts cid confirm = false) ∧
    ((¬ ∃ t ∈ ts, t.categoryId = cid) →
      handleDeleteCategory ts cid true = true) ∧
    ((∃ t ∈ ts, t.memberId = some mid) →
      ∀ confirm, handleDeleteMember ts mid confirm = false) ∧
    ((¬ ∃ t ∈ ts, t.memberId = some mid) →
      handleDeleteMember ts mid true = true) := by
  refine ⟨fun h confirm => ?_, fun h => ?_, fun h confirm => ?_, fun h => ?_⟩
  · rcases h with ⟨t, ht, hc⟩
    have ha : ts.any (fun t => t.categoryId == cid) = true :=
      List.any_eq_true.mpr ⟨t, ht, by simp [hc]⟩
    simp [handleDeleteCategory, ha]
  · have ha : ts.any (fun t => t.categoryId == cid) = false := by
      rw [List.any_eq_false]
      intro t ht hc
      exact h ⟨t, ht, by simpa using hc⟩
    simp [handleDeleteCategory, ha]
  · rcases h with ⟨t, ht, hc⟩
    have ha : ts.any (fun t => t.memberId == some mid) = true :=
      List.any_eq_true.mpr ⟨t, ht, by simp [hc]⟩
    simp [handleDeleteMember, ha]
  · have ha : ts.any (fun t => t.memberId == some mid) = false := by
      rw [List.any_eq_false]
      intro t ht hc
      exact h ⟨t, ht, by simpa using hc⟩
    simp [handleDeleteMember, ha]

theorem C8_reference_guarded_delete_witness :
    handleDeleteCategory
      [⟨"t1", .expense, 5, "c1", ⟨2024, 1, 1⟩, "d", some "m1"⟩] "c1" true =
      false ∧
    handleDeleteCategory
      [⟨"t1", .expense, 5, "c1", ⟨2024, 1, 1⟩, "d", some "m1"⟩] "c2" true =
      true :=
  ⟨(C8_reference_guarded_delete
      [⟨"t1", .expense, 5, "c1", ⟨2024, 1, 1⟩, "d", some "m1"⟩] "c1" "m1").1
      ⟨⟨"t1", .expense, 5, "c1", ⟨2024, 1, 1⟩, "d", some "m1"⟩, by simp, rfl⟩
      true,
   (C8_reference_guarded_delete
      [⟨"t1", .expense, 5, "c1", ⟨2024, 1, 1⟩, "d", some "m1"⟩] "c2" "m1").2.1
      (by decide)⟩

/- Collection Synchronizer (src/hooks/useFirestoreCollection.ts): the four
   mutating operations, as pure functions from the owning identity and the
   arguments to either a not-authenticated error or the store write they
   issue. -/

inductive SyncError where
  | notAuthenticated
deriving DecidableEq, Repr

inductive StoreWrite (τ : Type) where
  | addDoc (path : String) (item : τ)
  | updateDoc (path : String) (item : τ)
  | deleteDoc (path : String)
  | batchSet (path : String) (items : List τ)
deriving DecidableEq, Repr

def collectionPath (uid coll : String) : String :=
  s!"userData/{uid}/{coll}"

def docPath (uid coll id : String) : String :=
  s!"userData/{uid}/{coll}/{id}"

/-- addDocument (lines 55-63): throws when no user is present, otherwise adds
the item (the server-assigned createdAt timestamp is not modelled). -/
def addDocument (τ : Type) (user : Option AuthUser) (coll : String)
    (item : τ) : Except SyncError (StoreWrite τ) :=
  match user with
  | none => .error .notAuthenticated
  | some u => .ok (.addDoc (collectionPath u.uid coll) item)

/-- updateDocument (lines 65-69). -/
def updateDocument (τ : Type) (user : Option AuthUser) (coll id : String)
    (item : τ) : Except SyncError (StoreWrite τ) :=
  match user with
  | none => .error .notAuthenticated
  | some u => .ok (.updateDoc (docPath u.uid coll id) item)

/-- deleteDocument (lines 71-75). -/
def deleteDocument (τ : Type) (user : Option AuthUser) (coll id : String) :
    Except SyncError (StoreWrite τ) :=
  match user with
  | none => .error .notAuthenticated
  | some u => .ok (.deleteDoc (docPath u.uid coll id))

/-- addDocumentsBatch (lines 77-89): one atomic batched set of all items. -/
def addDocumentsBatch (τ : Type) (user : Option AuthUser) (coll : String)
    (items : List τ) : Except SyncError (StoreWrite τ) :=
  match user with
  | none => .error .notAuthenticated
  | some u => .ok (.batchSet (collectionPath u.uid coll) items)

/-- Claim C9: every mutating operation of the collection synchronizer —
create, update, delete and batch create — returns the distinguishable
not-authenticated error when no owning identity is present, and therefore
issues no store write (a write is only carried by an ok result). -/
theorem C9_unauthenticated_rejection (τ : Type) (coll id : String) (item : τ)
    (items : List τ) :
    addDocument τ none coll item = .error .notAuthenticated ∧
    updateDocument τ none coll id item = .error .notAuthenticated ∧
    deleteDocument τ none coll id = .error .notAuthenticated ∧
    addDocumentsBatch τ none coll items = .error .notAuthenticated :=
  ⟨rfl, rfl, rfl, rfl⟩

/- Backup / restore import gate (src/hooks/dataUtils.ts lines 49-68). -/

/-- Parsed JSON backup document as the import handler sees it: each field is
present (as an array) or absent.  A present key holding a falsy value is
modelled as absent, matching the truthiness tests in the code. -/
structure RawBackup where
  transactions : Option (List Transaction)
  categories : Option (List Category)
  members : Option (List FamilyMember)
deriving DecidableEq, Repr

structure BackupData where
  transactions : List Transaction
  categories : List Category
  members : List FamilyMember
deriving DecidableEq, Repr

/-- File-read outcome feeding importFromJson: the reader produced empty or
missing text (falsy, so the handler body is skipped), nonempty text that
fails JSON.parse, or a parsed document. -/
inductive ImportInput where
  | emptyContent
  | malformed
  | parsed (raw : RawBackup)
deriving DecidableEq, Repr

/-- Observable outcome of importFromJson: the alert message shown, if any,
and the data handed to the onImport callback, if any.  All store writes of
the restore path are driven by the delivered data, so delivered = none means
no write occurs. -/
structure ImportOutcome where
  alerted : Option String
  delivered : Option BackupData
deriving DecidableEq, Repr

/-- importFromJson: the reader callback guards on truthy content, then
JSON.parse inside try/catch, then requires the transactions and categories
keys; a missing members key defaults to the empty array. -/
def importFromJson : ImportInput → ImportOutcome
  | .emptyContent => { alerted := none, delivered := none }
  | .malformed =>
    { alerted := some "Error parsing JSON file.", delivered := none }
  | .parsed raw =>
    match raw.transactions, raw.categories with
    | some ts, some cs =>
      { alerted := none
        delivered := some
          { transactions := ts, categories := cs
            members := raw.members.getD [] } }
    | _, _ =>
      { alerted := some
          "Invalid JSON format. Make sure it contains \"transactions\" and \"categories\" keys."
        delivered := none }

/-- Claim C7, counterexample: a file whose read result is empty text is not
parseable as JSON, yet the handler's truthiness guard skips it silently — no
user-visible error is reported (and nothing is delivered), contradicting the
claim that every parse failure reports an error. -/
theorem C7_counterexample :
    (importFromJson .emptyContent).alerted = none ∧
    (importFromJson .emptyContent).delivered = none := by
  decide

/-- Claim C7 (amended): import delivers data exactly when both the
transactions and the categories keys are present, with a missing members key
defaulting to the empty list; a JSON.parse failure on nonempty content or a
missing required key reports a user-visible error and delivers nothing (so no
write at all is performed); empty file content is silently ignored, with
neither an error nor a write. -/
theorem C7_import_gate (raw : RawBackup) (ts : List Transaction)
    (cs : List Category) :
    (raw.transactions = some ts → raw.categories = some cs →
      importFromJson (.parsed raw) =
        ⟨none, some ⟨ts, cs, raw.members.getD []⟩⟩) ∧
    (raw.transactions = none ∨ raw.categories = none →
      (importFromJson (.parsed raw)).alerted.isSome = true ∧
      (importFromJson (.parsed raw)).delivered = none) ∧
    ((importFromJson .malformed).alerted.isSome = true ∧
      (importFromJson .malformed).delivered = none) ∧
    ((importFromJson .emptyContent).alerted = none ∧
      (importFromJson .emptyContent).delivered = none) := by
  obtain ⟨tr, ca, me⟩ := raw
  refine ⟨fun h1 h2 => ?_, fun h => ?_, by decide, by decide⟩
  · simp only at h1 h2
    subst h1; subst h2
    rfl
  · rcases h with h | h <;> simp only at h <;> subst h
    · cases ca <;> simp [importFromJson]
    · cases tr <;> simp [importFromJson]

theorem C7_import_gate_witness :
    importFromJson
      (.parsed { transactions := some [], categories := some [],
                 members := none }) =
      ⟨none, some ⟨[], [], []⟩⟩ :=
  (C7_import_gate
    { transactions := some [], categories := some [], members := none }
    [] []).1 rfl rfl

/- Dashboard Aggregator (src/unnamed/part_004).  JavaScript
   Array.prototype.sort is a stable sort, so the `.sort(comparator)` calls
   are modelled by the stable List.insertionSort with the comparator as the
   order relation. -/

inductive DateRange where
  | month
  | year
  | all
deriving DecidableEq, Repr

/-- Range filter of the Dashboard (part_004 lines 92-104). -/
def filterByRange (range : DateRange) (now : SimpleDate)
    (ts : List Transaction) : List Transaction :=
  ts.filter fun t =>
    match range with
    | .month => t.date.month == now.month && t.date.year == now.year
    | .year => t.date.year == now.year
    | .all => true

structure Totals where
  totalIncome : Int
  totalExpense : Int
  balance : Int
deriving DecidableEq, Repr

/-- Summary reduce of the Dashboard (part_004 lines 106-116): income amounts
add to totalIncome, every other transaction adds to totalExpense, and the
balance is recomputed as their difference at each step. -/
def dashStep (acc : Totals) (t : Transaction) : Totals :=
  match t.type with
  | .income =>
    let inc := acc.totalIncome + t.amount
    { totalIncome := inc, totalExpense := acc.totalExpense
      balance := inc - acc.totalExpense }
  | .expense =>
    let ex := acc.totalExpense + t.amount
    { totalIncome := acc.totalIncome, totalExpense := ex
      balance := acc.totalIncome - ex }

def dashTotals (ts : List Transaction) : Totals :=
  ts.foldl dashStep ⟨0, 0, 0⟩

def isExpense (t : Transaction) : Bool := t.type == .expense

structure CatDatum where
  name : String
  value : Int
  color : String
deriving DecidableEq, Repr

/-- Accumulator step inside the categoryExpenseData reduce: add the amount to
the entry keyed by the category id, creating the entry at the end on first
hit (JavaScript object keys keep insertion order). -/
def bumpCat : List (String × CatDatum) → Category → Int →
    List (String × CatDatum)
  | [], c, amt => [(c.id, ⟨c.name, amt, c.color⟩)]
  | (k, d) :: rest, c, amt =>
    if k = c.id then (k, { d with value := d.value + amt }) :: rest
    else (k, d) :: bumpCat rest c amt

/-- One reduce step of categoryExpenseData (part_004 lines 121-130): the
category is looked up by id, and a transaction whose category is missing is
skipped. -/
def insertExpense (cats : List Category) (acc : List (String × CatDatum))
    (t : Transaction) : List (String × CatDatum) :=
  match cats.find? (fun c => c.id == t.categoryId) with
  | none => acc
  | some c => bumpCat acc c t.amount

/-- categoryExpenseData (part_004 lines 118-135): expense transactions only,
grouped by category id, then the values sorted descending by total. -/
def categoryExpenseData (cats : List Category) (ts : List Transaction) :
    List CatDatum :=
  (((ts.filter isExpense).foldl (insertExpense cats) []).map Prod.snd).insertionSort
    (fun a b => b.value ≤ a.value)

/-- Month labels produced by the en-US short month formatter. -/
def monthName : Nat → String
  | 1 => "Jan"
  | 2 => "Feb"
  | 3 => "Mar"
  | 4 => "Apr"
  | 5 => "May"
  | 6 => "Jun"
  | 7 => "Jul"
  | 8 => "Aug"
  | 9 => "Sep"
  | 10 => "Oct"
  | 11 => "Nov"
  | 12 => "Dec"
  | _ => "Invalid"

def monthIndexOfName : String → Nat
  | "Jan" => 1
  | "Feb" => 2
  | "Mar" => 3
  | "Apr" => 4
  | "May" => 5
  | "Jun" => 6
  | "Jul" => 7
  | "Aug" => 8
  | "Sep" => 9
  | "Oct" => 10
  | "Nov" => 11
  | "Dec" => 12
  | _ => 0

structure TrendBucket where
  name : String
  Income : Int
  Expense : Int
deriving DecidableEq, Repr

/-- Bucket key of trendData: the short month name when range = year, the
day-of-month rendered as a string otherwise. -/
def trendKey (range : DateRange) (d : SimpleDate) : String :=
  match range with
  | .year => monthName d.month
  | _ => toString d.day

/-- Displayed bucket label of trendData. -/
def trendLabel (range : DateRange) (d : SimpleDate) : String :=
  match range with
  | .year => monthName d.month
  | _ => s!"{monthName d.month} {d.day}"

def bumpTrend : List (String × TrendBucket) → String → String → TxType →
    Int → List (String × TrendBucket)
  | [], key, label, ty, amt =>
    [(key,
      match ty with
      | .income => ⟨label, amt, 0⟩
      | .expense => ⟨label, 0, amt⟩)]
  | (k, b) :: rest, key, label, ty, amt =>
    if k = key then
      (k,
        match ty with
        | .income => { b with Income := b.Income + amt }
        | .expense => { b with Expense := b.Expense + amt }) :: rest
    else (k, b) :: bumpTrend rest key label ty amt

/-- Sort key of the trendData comparator: each label is parsed back into a
date (`01 <Mon> 2023` when range = year, `<Mon> <day>` in a fixed year
otherwise) and buckets are compared by its time value. -/
def trendSortKey (range : DateRange) (label : String) : Nat :=
  match range with
  | .year => monthIndexOfName label
  | _ =>
    match label.splitOn " " with
    | [m, d] => monthIndexOfName m * 100 + (d.toNat?.getD 0)
    | _ => 0

/-- trendData (part_004 lines 153-186): when range = year the buckets are
built from all transactions of the current year (not the range-filtered set),
otherwise from the range-filtered set; buckets exist only for periods with at
least one transaction and are sorted chronologically. -/
def trendData (range : DateRange) (now : SimpleDate)
    (ts : List Transaction) : List TrendBucket :=
  let filteredForTrend : List Transaction :=
    match range with
    | .year => ts.filter (fun t => t.date.year == now.year)
    | _ => filterByRange range now ts
  ((filteredForTrend.foldl
      (fun (acc : List (String × TrendBucket)) (t : Transaction) =>
        bumpTrend acc (trendKey range t.date) (trendLabel range t.date)
          t.type t.amount)
      []).map Prod.snd).insertionSort
    (fun a b => trendSortKey range a.name ≤ trendSortKey range b.name)

/-- Transactions of the concrete aggregation scenario:
income 100 on 2024-01-05, expense 30 on 2024-01-05, expense 20 on
2024-02-01. -/
def sampleTransactions : List Transaction :=
  [⟨"t1", .income, 100, "c1", ⟨2024, 1, 5⟩, "", none⟩,
   ⟨"t2", .expense, 30, "c1", ⟨2024, 1, 5⟩, "", none⟩,
   ⟨"t3", .expense, 20, "c1", ⟨2024, 2, 1⟩, "", none⟩]

/-- Claim C4: on the three sample transactions with the range selector on
year and any evaluation time within 2024, the Dashboard computes
totalIncome 100, totalExpense 50, balance 50, and the trend series is the
two chronologically ordered buckets Jan (Income 100, Expense 30) and
Feb (Income 0, Expense 20). -/
theorem C4_year_aggregation (now : SimpleDate) (h : now.year = 2024) :
    (dashTotals (filterByRange .year now sampleTransactions)).totalIncome =
      100 ∧
    (dashTotals (filterByRange .year now sampleTransactions)).totalExpense =
      50 ∧
    (dashTotals (filterByRange .year now sampleTransactions)).balance = 50 ∧
    trendData .year now sampleTransactions =
      [⟨"Jan", 100, 30⟩, ⟨"Feb", 0, 20⟩] := by
  obtain ⟨y, m, d⟩ := now
  have hy : y = 2024 := h
  subst hy
  exact ⟨rfl, rfl, rfl, rfl⟩

theorem C4_year_aggregation_witness :
    (SimpleDate.mk 2024 6 15).year = 2024 ∧
    trendData .year ⟨2024, 6, 15⟩ sampleTransactions =
      [⟨"Jan", 100, 30⟩, ⟨"Feb", 0, 20⟩] :=
  ⟨rfl, (C4_year_aggregation ⟨2024, 6, 15⟩ rfl).2.2.2⟩

/- Backup / restore round trip (src/hooks/dataUtils.ts exportToJson and the
   handleRestore path in src/App.tsx lines 184-222). -/

/-- Transaction record as (re)created by restore: every field except the
store-assigned id. -/
structure TransactionData where
  type : TxType
  amount : Int
  categoryId : String
  date : SimpleDate
  description : String
  memberId : Option String
deriving DecidableEq, Repr

def Transaction.strip (t : Transaction) : TransactionData :=
  ⟨t.type, t.amount, t.categoryId, t.date, t.description, t.memberId⟩

structure CategoryData where
  name : String
  color : String
  icon : String
  type : TxType
deriving DecidableEq, Repr

def Category.strip (c : Category) : CategoryData :=
  ⟨c.name, c.color, c.icon, c.type⟩

structure MemberData where
  name : String
deriving DecidableEq, Repr

def FamilyMember.strip (m : FamilyMember) : MemberData := ⟨m.name⟩

/-- ASCII case maps modelling JavaScript toLowerCase / toUpperCase on the
ASCII names this application manipulates (written as explicit letter tables
so that the kernel can evaluate them). -/
def lowerChar : Char → Char
  | 'A' => 'a'
  | 'B' => 'b'
  | 'C' => 'c'
  | 'D' => 'd'
  | 'E' => 'e'
  | 'F' => 'f'
  | 'G' => 'g'
  | 'H' => 'h'
  | 'I' => 'i'
  | 'J' => 'j'
  | 'K' => 'k'
  | 'L' => 'l'
  | 'M' => 'm'
  | 'N' => 'n'
  | 'O' => 'o'
  | 'P' => 'p'
  | 'Q' => 'q'
  | 'R' => 'r'
  | 'S' => 's'
  | 'T' => 't'
  | 'U' => 'u'
  | 'V' => 'v'
  | 'W' => 'w'
  | 'X' => 'x'
  | 'Y' => 'y'
  | 'Z' => 'z'
  | c => c

def upperChar : Char → Char
  | 'a' => 'A'
  | 'b' => 'B'
  | 'c' => 'C'
  | 'd' => 'D'
  | 'e' => 'E'
  | 'f' => 'F'
  | 'g' => 'G'
  | 'h' => 'H'
  | 'i' => 'I'
  | 'j' => 'J'
  | 'k' => 'K'
  | 'l' => 'L'
  | 'm' => 'M'
  | 'n' => 'N'
  | 'o' => 'O'
  | 'p' => 'P'
  | 'q' => 'Q'
  | 'r' => 'R'
  | 's' => 'S'
  | 't' => 'T'
  | 'u' => 'U'
  | 'v' => 'V'
  | 'w' => 'W'
  | 'x' => 'X'
  | 'y' => 'Y'
  | 'z' => 'Z'
  | c => c

def jsToLower (s : String) : String := String.mk (s.data.map lowerChar)

def jsToUpper (s : String) : String := String.mk (s.data.map upperChar)

/-- JavaScript `String(name).toUpperCase().replace(/\s+/g, '_')`: uppercase,
then every maximal run of whitespace becomes a single underscore. -/
def collapseWhitespace (s : String) : String :=
  (s.toList.foldl
    (fun (acc : String × Bool) ch =>
      if ch.isWhitespace then
        if acc.2 then acc else (acc.1.push '_', true)
      else (acc.1.push ch, false))
    ("", false)).1

def deriveIconKey (name : String) : String :=
  collapseWhitespace (jsToUpper name)

/-- Category sanitization in handleRestore (src/App.tsx lines 188-197): name
and color are copied, the icon is recomputed from the name (falling back to
OTHER when the derived key is not a known icon key), and the type is kept
when present — categories in our own exports always carry a truthy type.
The icon-key set comes from the ICONS constant (constants.ts, not part of
the sources here), so it is kept as a parameter. -/
def sanitizeCategory (iconKeys : List String) (c : Category) : CategoryData :=
  let key := deriveIconKey c.name
  { name := c.name, color := c.color
    icon := if iconKeys.contains key then key else "OTHER"
    type := c.type }

structure RestorePlan where
  transactions : List TransactionData
  categories : List CategoryData
  members : List MemberData
deriving DecidableEq, Repr

/-- Batched creates issued by handleRestore (src/App.tsx lines 199-211) once
the user confirms: ids are stripped, categories are sanitized, and members
whose name lowercases to "home balance" are dropped. -/
def restorePlan (iconKeys : List String) (d : BackupData) : RestorePlan :=
  { transactions := d.transactions.map Transaction.strip
    categories := d.categories.map (sanitizeCategory iconKeys)
    members :=
      (d.members.filter (fun m => jsToLower m.name != "home balance")).map
        FamilyMember.strip }

/-- exportToJson (src/hooks/dataUtils.ts lines 31-47) serializes the three
collections (plus an export timestamp, not modelled) under exactly the keys
the import gate requires. -/
def exportToJsonData (ts : List Transaction) (cats : List Category)
    (ms : List FamilyMember) : RawBackup :=
  { transactions := some ts, categories := some cats, members := some ms }

/-- Export to JSON followed by import of the same document and the restore
batch computation. -/
def roundTrip (iconKeys : List String) (ts : List Transaction)
    (cats : List Category) (ms : List FamilyMember) : Option RestorePlan :=
  ((importFromJson (.parsed (exportToJsonData ts cats ms))).delivered).map
    (restorePlan iconKeys)

/-- Claim C6, counterexample: exporting a snapshot whose only member is named
"Home Balance" and importing it back restores no member at all — the restore
path drops every member whose name lowercases to "home balance" — so the
member's field values are not reproduced. -/
theorem C6_counterexample :
    (roundTrip [] [] [] [⟨"m1", "Home Balance"⟩]).map RestorePlan.members =
      some [] ∧
    ([⟨"m1", "Home Balance"⟩] : List FamilyMember).map FamilyMember.strip ≠
      [] := by
  decide

/-- Claim C6 (amended): exporting to JSON and importing the same JSON
reproduces an equivalent set of transactions, categories and members (ids
may differ, every other field matches), provided no member is named "home
balance" up to case (such members are dropped by restore) and every
category's icon already equals the icon key restore derives from its name
(restore recomputes the icon from the name instead of keeping the exported
icon; name, color and type are always preserved). -/
theorem C6_round_trip (iconKeys : List String) (ts : List Transaction)
    (cats : List Category) (ms : List FamilyMember)
    (hicon : ∀ c ∈ cats,
      c.icon =
        (if iconKeys.contains (deriveIconKey c.name) then deriveIconKey c.name
         else "OTHER"))
    (hms : ∀ m ∈ ms, jsToLower m.name ≠ "home balance") :
    roundTrip iconKeys ts cats ms =
      some
        { transactions := ts.map Transaction.strip
          categories := cats.map Category.strip
          members := ms.map FamilyMember.strip } := by
  have hstep : roundTrip iconKeys ts cats ms =
      some (restorePlan iconKeys ⟨ts, cats, ms⟩) := rfl
  have hcat : cats.map (sanitizeCategory iconKeys) = cats.map Category.strip :=
    List.map_congr_left fun c hc => by
      simp only [sanitizeCategory, Category.strip, ← hicon c hc]
  have hmem : ms.filter (fun m => jsToLower m.name != "home balance") = ms :=
    List.filter_eq_self.mpr fun m hm => by
      simpa [bne_iff_ne] using hms m hm
  rw [hstep]
  simp only [restorePlan, hcat, hmem]

theorem C6_round_trip_witness :
    roundTrip ["FOOD"] [⟨"t1", .expense, 30, "c1", ⟨2024, 1, 5⟩, "g", none⟩]
      [⟨"c1", "Food", "#f00", "FOOD", .expense⟩] [⟨"m1", "Alice"⟩] =
      some
        { transactions := [⟨.expense, 30, "c1", ⟨2024, 1, 5⟩, "g", none⟩]
          categories := [⟨"Food", "#f00", "FOOD", .expense⟩]
          members := [⟨"Alice"⟩] } :=
  C6_round_trip ["FOOD"]
    [⟨"t1", .expense, 30, "c1", ⟨2024, 1, 5⟩, "g", none⟩]
    [⟨"c1", "Food", "#f00", "FOOD", .expense⟩] [⟨"m1", "Alice"⟩]
    (by decide) (by decide)

/- Claim C5 development: characterization of categoryExpenseData. -/

/-- Sum of the amounts of the expense transactions carrying a given
categoryId. -/
def expenseSumFor (ts : List Transaction) (cid : String) : Int :=
  (((ts.filter isExpense).filter (fun t => t.categoryId == cid)).map
    Transaction.amount).sum

/-- Lookup of the accumulator entry keyed by a category id. -/
def lookupCat (acc : List (String × CatDatum)) (k : String) :
    Option CatDatum :=
  (acc.find? (fun p => p.1 == k)).map Prod.snd

theorem lookupCat_nil (k : String) : lookupCat [] k = none := rfl

theorem lookupCat_cons (k0 : String) (d0 : CatDatum)
    (rest : List (String × CatDatum)) (k : String) :
    lookupCat ((k0, d0) :: rest) k =
      if k0 = k then some d0 else lookupCat rest k := by
  by_cases h : k0 = k <;> simp [lookupCat, List.find?_cons, h]

theorem lookupCat_bumpCat (acc : List (String × CatDatum)) (c : Category)
    (amt : Int) (k : String) :
    lookupCat (bumpCat acc c amt) k =
      if k = c.id then
        (match lookupCat acc k with
         | some d => some { d with value := d.value + amt }
         | none => some ⟨c.name, amt, c.color⟩)
      else lookupCat acc k := by
  induction acc with
  | nil =>
    by_cases h : k = c.id
    · simp [bumpCat, lookupCat_cons, lookupCat_nil, h]
    · have hne : ¬ c.id = k := fun hh => h hh.symm
      simp [bumpCat, lookupCat_cons, lookupCat_nil, h, hne]
  | cons a rest ih =>
    obtain ⟨k0, d0⟩ := a
    by_cases h0 : k0 = c.id
    · subst h0
      by_cases hk : c.id = k
      · subst hk
        simp [bumpCat, lookupCat_cons]
      · have hk2 : ¬ k = c.id := fun hh => hk hh.symm
        simp [bumpCat, lookupCat_cons, hk, hk2]
    · by_cases hk0 : k0 = k
      · subst hk0
        have h0s : ¬ k0 = c.id := h0
        simp [bumpCat, lookupCat_cons, h0s]
      · simp [bumpCat, lookupCat_cons, h0, hk0, ih]

theorem keys_bumpCat (acc : List (String × CatDatum)) (c : Category)
    (amt : Int) :
    (bumpCat acc c amt).map Prod.fst =
      if c.id ∈ acc.map Prod.fst then acc.map Prod.fst
      else acc.map Prod.fst ++ [c.id] := by
  induction acc with
  | nil => simp [bumpCat]
  | cons a rest ih =>
    obtain ⟨k0, d0⟩ := a
    by_cases h0 : k0 = c.id
    · subst h0
      simp [bumpCat]
    · have hne : ¬ c.id = k0 := fun hh => h0 hh.symm
      simp only [bumpCat, if_neg h0, List.map_cons, List.mem_cons, ih]
      by_cases hc : c.id ∈ rest.map Prod.fst <;>
        simp [hc, hne]

theorem nodup_keys_bumpCat (acc : List (String × CatDatum)) (c : Category)
    (amt : Int) (h : (acc.map Prod.fst).Nodup) :
    ((bumpCat acc c amt).map Prod.fst).Nodup := by
  rw [keys_bumpCat]
  by_cases hc : c.id ∈ acc.map Prod.fst
  · simpa [hc]
  · simp [hc, List.nodup_append, h]

/-- Characterization of the grouping fold of categoryExpenseData: the entry
keyed by k accumulates the amounts of the processed transactions carrying
categoryId k, provided k resolves to a category; a transaction whose
categoryId resolves to no category never touches the accumulator. -/
theorem lookupCat_foldl (cats : List Category) (l : List Transaction)
    (acc : List (String × CatDatum)) (k : String) :
    lookupCat (l.foldl (insertExpense cats) acc) k =
      match cats.find? (fun c => c.id == k) with
      | some c =>
        (match lookupCat acc k with
         | some d =>
           some { d with value := d.value +
             ((l.filter (fun t => t.categoryId == k)).map
               Transaction.amount).sum }
         | none =>
           if l.any (fun t => t.categoryId == k) then
             some ⟨c.name,
               ((l.filter (fun t => t.categoryId == k)).map
                 Transaction.amount).sum,
               c.color⟩
           else none)
      | none => lookupCat acc k := by
  induction l generalizing acc with
  | nil =>
    cases hfk : cats.find? (fun c => c.id == k) with
    | none => simp
    | some c =>
      cases hl : lookupCat acc k with
      | none => exact hl
      | some d => simp [hl]
  | cons t l ih =>
    rw [List.foldl_cons]
    cases hft : cats.find? (fun c => c.id == t.categoryId) with
    | none =>
      have hins : insertExpense cats acc t = acc := by
        simp [insertExpense, hft]
      rw [hins, ih]
      cases hfk : cats.find? (fun c => c.id == k) with
      | none => rfl
      | some c =>
        have hne : (t.categoryId == k) = false := by
          apply beq_eq_false_iff_ne.mpr
          intro he
          rw [he] at hft
          rw [hft] at hfk
          cases hfk
        simp [List.filter_cons, List.any_cons, hne]
    | some c0 =>
      have hc0 : c0.id = t.categoryId := by
        have h1 := List.find?_some hft
        simpa using h1
      have hins : insertExpense cats acc t = bumpCat acc c0 t.amount := by
        simp [insertExpense, hft]
      rw [hins, ih, lookupCat_bumpCat]
      by_cases hk : k = c0.id
      · subst hk
        have hfk : cats.find? (fun c => c.id == c0.id) = some c0 := by
          rw [hc0]; exact hft
        have hbeq : (t.categoryId == c0.id) = true := by simp [hc0]
        cases hl : lookupCat acc c0.id with
        | some d =>
          simp [hfk, hl, List.filter_cons, List.any_cons, hbeq, add_assoc]
        | none =>
          simp [hfk, hl, List.filter_cons, List.any_cons, hbeq]
      · have hne : (t.categoryId == k) = false := by
          apply beq_eq_false_iff_ne.mpr
          intro he
          exact hk (by rw [← he]; exact hc0.symm)
        rw [if_neg hk]
        simp [List.filter_cons, List.any_cons, hne]

theorem nodup_keys_foldl (cats : List Category) (l : List Transaction)
    (acc : List (String × CatDatum)) (h : (acc.map Prod.fst).Nodup) :
    (((l.foldl (insertExpense cats) acc)).map Prod.fst).Nodup := by
  induction l generalizing acc with
  | nil => simpa
  | cons t l ih =>
    rw [List.foldl_cons]
    apply ih
    cases hft : cats.find? (fun c => c.id == t.categoryId) with
    | none => simpa [insertExpense, hft]
    | some c0 =>
      have hins : insertExpense cats acc t = bumpCat acc c0 t.amount := by
        simp [insertExpense, hft]
      rw [hins]
      exact nodup_keys_bumpCat acc c0 t.amount h

theorem mem_iff_lookupCat (acc : List (String × CatDatum)) (k : String)
    (d : CatDatum) (h : (acc.map Prod.fst).Nodup) :
    (k, d) ∈ acc ↔ lookupCat acc k = some d := by
  induction acc with
  | nil => simp [lookupCat_nil]
  | cons a rest ih =>
    obtain ⟨k0, d0⟩ := a
    simp only [List.map_cons, List.nodup_cons] at h
    rw [lookupCat_cons]
    by_cases hk : k0 = k
    · subst hk
      rw [if_pos rfl]
      simp only [List.mem_cons]
      constructor
      · rintro (he | hm)
        · rw [Prod.mk.injEq] at he
          rw [he.2]
        · exact absurd (List.mem_map_of_mem Prod.fst hm) h.1
      · intro he
        left
        rw [Prod.mk.injEq]
        exact ⟨rfl, (Option.some.inj he).symm⟩
    · have hne : ¬ ((k, d) = (k0, d0)) := by
        rw [Prod.mk.injEq]
        rintro ⟨he, -⟩
        exact hk he.symm
      simp [hne, hk, ih h.2]

theorem find?_eq_some_of_nodup (cats : List Category) (c : Category)
    (k : String) (h : (cats.map Category.id).Nodup) (hc : c ∈ cats)
    (hk : c.id = k) :
    cats.find? (fun c => c.id == k) = some c := by
  induction cats with
  | nil => cases hc
  | cons c0 rest ih =>
    simp only [List.map_cons, List.nodup_cons] at h
    rcases List.mem_cons.mp hc with he | hm
    · subst he
      simp [List.find?_cons, hk]
    · by_cases h0 : c0.id = k
      · exfalso
        apply h.1
        rw [h0, ← hk]
        exact List.mem_map_of_mem Category.id hm
      · have hb : (c0.id == k) = false := beq_eq_false_iff_ne.mpr h0
        rw [List.find?_cons, hb]
        exact ih h.2 hm

theorem dashStep_foldl_totalExpense (l : List Transaction) :
    ∀ acc : Totals,
      (l.foldl dashStep acc).totalExpense =
        acc.totalExpense +
          ((l.filter isExpense).map Transaction.amount).sum := by
  induction l with
  | nil => intro acc; simp
  | cons t l ih =>
    intro acc
    rw [List.foldl_cons, ih]
    cases ht : t.type <;>
      simp [dashStep, isExpense, ht, List.filter_cons, add_assoc]

/-- Claim C5: the per-category expense breakdown is sorted descending by
total and is, as a multiset, exactly one bucket per existing category hit by
at least one expense transaction, whose value is the sum of the amounts of
the expense transactions carrying that categoryId — income transactions and
transactions whose categoryId matches no category contribute to no bucket —
while the overall totalExpense still counts every expense transaction,
missing category or not.  Category ids are assumed distinct, as the store
guarantees. -/
theorem C5_category_breakdown (cats : List Category) (ts : List Transaction)
    (hnodup : (cats.map Category.id).Nodup) :
    (categoryExpenseData cats ts).Sorted
      (fun a b => b.value ≤ a.value) ∧
    (categoryExpenseData cats ts).Perm
      ((cats.filter
          (fun c =>
            (ts.filter isExpense).any (fun t => t.categoryId == c.id))).map
        (fun c => ⟨c.name, expenseSumFor ts c.id, c.color⟩)) ∧
    (dashTotals ts).totalExpense =
      ((ts.filter isExpense).map Transaction.amount).sum := by
  haveI htot : IsTotal CatDatum (fun a b => b.value ≤ a.value) :=
    ⟨fun a b => le_total b.value a.value⟩
  haveI htrans : IsTrans CatDatum (fun a b => b.value ≤ a.value) :=
    ⟨fun a b c hab hbc => le_trans hbc hab⟩
  refine ⟨?_, ?_, ?_⟩
  · exact List.sorted_insertionSort _ _
  · have hGkeys :
        ((((ts.filter isExpense).foldl (insertExpense cats) []).map
          Prod.fst)).Nodup :=
      nodup_keys_foldl cats (ts.filter isExpense) [] (by simp)
    have hGnodup :
        ((ts.filter isExpense).foldl (insertExpense cats) []).Nodup :=
      List.Nodup.of_map Prod.fst hGkeys
    have hRkeys :
        (((cats.filter
            (fun c =>
              (ts.filter isExpense).any
                (fun t => t.categoryId == c.id))).map
          (fun c =>
            ((c.id, ⟨c.name, expenseSumFor ts c.id, c.color⟩) :
              String × CatDatum))).map Prod.fst).Nodup := by
      rw [List.map_map]
      exact List.Nodup.sublist
        (List.Sublist.map Category.id (List.filter_sublist cats)) hnodup
    have hRnodup := List.Nodup.of_map Prod.fst hRkeys
    have hmem : ∀ p : String × CatDatum,
        p ∈ ((ts.filter isExpense).foldl (insertExpense cats) []) ↔
        p ∈ ((cats.filter
            (fun c =>
              (ts.filter isExpense).any
                (fun t => t.categoryId == c.id))).map
          (fun c =>
            ((c.id, ⟨c.name, expenseSumFor ts c.id, c.color⟩) :
              String × CatDatum))) := by
      rintro ⟨k, d⟩
      rw [mem_iff_lookupCat _ k d hGkeys, lookupCat_foldl]
      constructor
      · intro h
        cases hfk : cats.find? (fun c => c.id == k) with
        | none => rw [hfk, lookupCat_nil] at h; simp at h
        | some c =>
          rw [hfk] at h
          simp only [lookupCat_nil] at h
          by_cases hhit :
              ((ts.filter isExpense).any (fun t => t.categoryId == k)) = true
          · rw [if_pos hhit] at h
            have hd := Option.some.inj h
            have hcid : c.id = k := by simpa using List.find?_some hfk
            have hcmem : c ∈ cats := List.mem_of_find?_eq_some hfk
            apply List.mem_map.mpr
            refine ⟨c, List.mem_filter.mpr ⟨hcmem, ?_⟩, ?_⟩
            · rw [hcid]
              exact hhit
            · rw [Prod.mk.injEq]
              refine ⟨hcid, ?_⟩
              rw [← hd]
              simp [expenseSumFor, hcid]
          · rw [if_neg hhit] at h
            simp at h
      · intro h
        rcases List.mem_map.mp h with ⟨c, hcf, hmk⟩
        rcases List.mem_filter.mp hcf with ⟨hcmem, hhit⟩
        rw [Prod.mk.injEq] at hmk
        obtain ⟨hid, hd⟩ := hmk
        have hfk : cats.find? (fun c2 => c2.id == k) = some c :=
          find?_eq_some_of_nodup cats c k hnodup hcmem hid
        rw [hfk]
        simp only [lookupCat_nil]
        have hhit2 :
            ((ts.filter isExpense).any (fun t => t.categoryId == k)) = true := by
          rw [← hid]
          exact hhit
        rw [if_pos hhit2, ← hd]
        simp [expenseSumFor, hid]
    have hpermGR := (List.perm_ext_iff_of_nodup hGnodup hRnodup).mpr hmem
    have h2 :
        (categoryExpenseData cats ts).Perm
          (((ts.filter isExpense).foldl (insertExpense cats) []).map
            Prod.snd) :=
      List.perm_insertionSort _ _
    have h3 := hpermGR.map Prod.snd
    have h4 :
        (((cats.filter
            (fun c =>
              (ts.filter isExpense).any
                (fun t => t.categoryId == c.id))).map
          (fun c =>
            ((c.id, ⟨c.name, expenseSumFor ts c.id, c.color⟩) :
              String × CatDatum))).map Prod.snd) =
        ((cats.filter
            (fun c =>
              (ts.filter isExpense).any
                (fun t => t.categoryId == c.id))).map
          (fun c => (⟨c.name, expenseSumFor ts c.id, c.color⟩ : CatDatum))) := by
      rw [List.map_map]
      exact List.map_congr_left fun c _ => rfl
    exact h4 ▸ (h2.trans h3)
  · have h := dashStep_foldl_totalExpense ts ⟨0, 0, 0⟩
    simp only [show (⟨0, 0, 0⟩ : Totals).totalExpense = 0 from rfl,
      zero_add] at h
    exact h

theorem C5_category_breakdown_witness :
    (dashTotals
      [⟨"t1", .expense, 30, "c1", ⟨2024, 1, 5⟩, "", none⟩,
       ⟨"t2", .expense, 70, "c2", ⟨2024, 1, 6⟩, "", none⟩,
       ⟨"t3", .expense, 20, "c1", ⟨2024, 1, 7⟩, "", none⟩,
       ⟨"t4", .income, 100, "c1", ⟨2024, 1, 8⟩, "", none⟩,
       ⟨"t5", .expense, 10, "cMissing", ⟨2024, 1, 9⟩, "", none⟩]).totalExpense =
      (([⟨"t1", .expense, 30, "c1", ⟨2024, 1, 5⟩, "", none⟩,
         ⟨"t2", .expense, 70, "c2", ⟨2024, 1, 6⟩, "", none⟩,
         ⟨"t3", .expense, 20, "c1", ⟨2024, 1, 7⟩, "", none⟩,
         ⟨"t4", .income, 100, "c1", ⟨2024, 1, 8⟩, "", none⟩,
         ⟨"t5", .expense, 10, "cMissing", ⟨2024, 1, 9⟩, "", none⟩].filter
        isExpense).map Transaction.amount).sum :=
  (C5_category_breakdown
    [⟨"c1", "Food", "#f00", "FOOD", .expense⟩,
     ⟨"c2", "Rent", "#0f0", "RENT", .expense⟩]
    [⟨"t1", .expense, 30, "c1", ⟨2024, 1, 5⟩, "", none⟩,
     ⟨"t2", .expense, 70, "c2", ⟨2024, 1, 6⟩, "", none⟩,
     ⟨"t3", .expense, 20, "c1", ⟨2024, 1, 7⟩, "", none⟩,
     ⟨"t4", .income, 100, "c1", ⟨2024, 1, 8⟩, "", none⟩,
     ⟨"t5", .expense, 10, "cMissing", ⟨2024, 1, 9⟩, "", none⟩]
    (by decide)).2.2
